import Mathlib

/-!
Shallow embedding of the workload-management statistics-aggregation and
view-state logic of
`src/public/pages/QueryGroupDetails/Components/QueryGroupAggregateSummary.tsx`
(the `WorkloadManagementMain` component).  Numbers coming from the backend
are fractions in [0,1]; they are modelled as rationals.  JavaScript `NaN`
is modelled explicitly by the `JSNum` type, since the code uses `NaN` as an
"unset limit" / "no data" sentinel and relies on every comparison with
`NaN` being false.
-/

/-- A JavaScript number that may be the `NaN` sentinel; finite values are
rationals. -/
inductive JSNum where
  | nan : JSNum
  | num (q : ℚ) : JSNum
deriving DecidableEq

/-- JavaScript `a > b` where `b` may be `NaN`: every comparison with `NaN`
is false. -/
def jsGtNum (a : ℚ) (b : JSNum) : Bool :=
  match b with
  | .nan => false
  | .num q => decide (q < a)

/-- One table row (interface `WorkloadGroupData` in the source). -/
structure WorkloadGroupData where
  name : String
  cpuUsage : ℤ
  memoryUsage : ℤ
  totalCompletions : ℕ
  totalRejections : ℕ
  totalCancellations : ℕ
  topQueriesLink : String
  cpuStats : List JSNum
  memStats : List JSNum
  cpuLimit : JSNum
  memLimit : JSNum
  groupId : String
deriving DecidableEq

/-- Per-group statistics from `GET /_wlm/{nodeId}/stats` (interface
`GroupStats`); `cpu` stands for the optional chain
`cpu?.current_usage` and `memory` for `memory?.current_usage`. -/
structure GroupStats where
  total_completions : Option ℕ
  total_rejections : Option ℕ
  total_cancellations : Option ℕ
  cpu : Option ℚ
  memory : Option ℚ
deriving DecidableEq

/-- `resource_limits` object of a workload group. -/
structure ResourceLimits where
  cpu : ℚ
  memory : ℚ
deriving DecidableEq

/-- One element of `workload_groups` from `GET /_wlm/workload_group`
(interface `WorkloadGroup`). -/
structure WorkloadGroup where
  _id : String
  name : String
  resource_limits : Option ResourceLimits
deriving DecidableEq

/-- Per-node, per-group usage from `GET /_wlm/stats/{groupId}`; `cpu` is
the optional chain `cpu?.current_usage`, `memory` likewise. -/
structure NodeGroupUsage where
  cpu : Option ℚ
  memory : Option ℚ
deriving DecidableEq

/-- One node entry of the `GET /_wlm/stats/{groupId}` response (interface
`NodeStats`); the record of workload groups is modelled as an association
list in insertion order. -/
structure NodeStats where
  workload_groups : List (String × NodeGroupUsage)
deriving DecidableEq

/-- The limits entry stored per group id by
`fetchWorkloadGroupsWithLimits`. -/
structure GroupLimits where
  cpuLimit : JSNum
  memLimit : JSNum
deriving DecidableEq

/-- One entry of the `reduce` in `fetchWorkloadGroupsWithLimits`:
`group.resource_limits?.cpu ? Math.round(cpu * 100) : NaN`.  JavaScript
truthiness of a number means the `NaN` branch is taken both when
`resource_limits` is absent and when the configured value is exactly `0`.
`Math.round` on a nonnegative value is `⌊x + 1/2⌋`, which is Mathlib's
`round`. -/
def limitsEntry (rl : Option ResourceLimits) : GroupLimits :=
  let cpuLimit : JSNum :=
    match rl with
    | some l => if l.cpu ≠ 0 then .num ((round (l.cpu * 100) : ℤ) : ℚ) else .nan
    | none => .nan
  let memLimit : JSNum :=
    match rl with
    | some l => if l.memory ≠ 0 then .num ((round (l.memory * 100) : ℤ) : ℚ) else .nan
    | none => .nan
  ⟨cpuLimit, memLimit⟩

/-- The `reduce` of `fetchWorkloadGroupsWithLimits`: builds the record
mapping `_id` to its limits entry; a later entry with the same id
overwrites an earlier one, as JavaScript property assignment does. -/
def buildLimitsMap (gs : List WorkloadGroup) : String → Option GroupLimits :=
  gs.foldl
    (fun acc g => fun k =>
      if k = g._id then some (limitsEntry g.resource_limits) else acc k)
    (fun _ => none)

/-- `fetchWorkloadGroupsWithLimits`: `none` models a rejected request
(`NetworkFailure`); the `catch` swallows it with a `console.warn` and
returns the empty record `{}`. -/
def fetchWorkloadGroupsWithLimits (resp : Option (List WorkloadGroup)) :
    String → Option GroupLimits :=
  match resp with
  | some gs => buildLimitsMap gs
  | none => fun _ => none

/-- Construction of one element of `rawData` in `fetchStatsForNode`.
`idToName` models the record returned by `fetchWorkloadGroupNameMap`,
assumed to contain every group id that occurs.  The destructuring
`const { cpuLimit = 100, memLimit = 100 } = groupIdToLimits[groupId] || {}`
applies the default `100` exactly when the group id is absent from the
record (a present `NaN` entry is kept, since `NaN` is not `undefined`). -/
def mkRow (limitsMap : String → Option GroupLimits) (idToName : String → String)
    (entry : String × GroupStats) : WorkloadGroupData :=
  let groupId := entry.1
  let gs := entry.2
  { name := if groupId = "DEFAULT_WORKLOAD_GROUP" then groupId else idToName groupId
    cpuUsage := round ((gs.cpu.getD 0) * 100)
    memoryUsage := round ((gs.memory.getD 0) * 100)
    totalCompletions := gs.total_completions.getD 0
    totalRejections := gs.total_rejections.getD 0
    totalCancellations := gs.total_cancellations.getD 0
    topQueriesLink := ""
    cpuStats := []
    memStats := []
    cpuLimit := match limitsMap groupId with | some l => l.cpuLimit | none => .num 100
    memLimit := match limitsMap groupId with | some l => l.memLimit | none => .num 100
    groupId := groupId }

/-- JavaScript `toLowerCase`, modelled characterwise. -/
def lowerStr (s : String) : String :=
  String.mk (s.data.map Char.toLower)

/-- `sub` occurs at the start of `hay`. -/
def prefixAt : List Char → List Char → Bool
  | [], _ => true
  | _ :: _, [] => false
  | a :: as, b :: bs => a == b && prefixAt as bs

/-- `sub` occurs somewhere in `hay`; the empty needle always occurs, as in
JavaScript `includes`. -/
def containsSub : List Char → List Char → Bool
  | _, [] => true
  | [], _ :: _ => false
  | h :: t, s :: ss => prefixAt (s :: ss) (h :: t) || containsSub t (s :: ss)

/-- JavaScript `s.includes(sub)`. -/
def jsIncludes (s sub : String) : Bool :=
  containsSub s.data sub.data

/-- The search filter of `fetchStatsForNode` (lines 328-330): an empty
search string (falsy) skips filtering; otherwise rows are kept when the
lowercased name contains the lowercased search text. -/
def filterRows (searchQuery : String) (rows : List WorkloadGroupData) :
    List WorkloadGroupData :=
  if searchQuery.isEmpty then rows
  else rows.filter (fun g => jsIncludes (lowerStr g.name) (lowerStr searchQuery))

/-- The sortable table fields accepted by `sortData`. -/
inductive SortField where
  | name
  | cpuUsage
  | memoryUsage
  | totalCompletions
  | totalRejections
  | totalCancellations
deriving DecidableEq

inductive SortDirection where
  | asc
  | desc
deriving DecidableEq

/-- Numeric sort key of a row for the numeric fields. -/
def numKey (field : SortField) (g : WorkloadGroupData) : ℚ :=
  match field with
  | .name => 0
  | .cpuUsage => (g.cpuUsage : ℚ)
  | .memoryUsage => (g.memoryUsage : ℚ)
  | .totalCompletions => (g.totalCompletions : ℚ)
  | .totalRejections => (g.totalRejections : ℚ)
  | .totalCancellations => (g.totalCancellations : ℚ)

/-- The comparator of `sortData`: numeric fields compare by `a - b` (or
`b - a` for descending); the string field uses `localeCompare`, modelled
here as lexicographic string order. -/
def rowLe (field : SortField) (dir : SortDirection) (a b : WorkloadGroupData) : Bool :=
  match field, dir with
  | .name, .asc => decide (a.name ≤ b.name)
  | .name, .desc => decide (b.name ≤ a.name)
  | f, .asc => decide (numKey f a ≤ numKey f b)
  | f, .desc => decide (numKey f b ≤ numKey f a)

/-- `sortData`: a stable comparator sort (modern `Array.prototype.sort` is
stable), modelled by insertion sort on the comparator's order. -/
def sortData (rows : List WorkloadGroupData) (field : SortField)
    (dir : SortDirection) : List WorkloadGroupData :=
  List.insertionSort (fun a b => rowLe field dir a b = true) rows

/-- `rows.slice(pageIndex * pageSize, (pageIndex + 1) * pageSize)` (used
at lines 334 and 775). -/
def paginate {α : Type} (rows : List α) (pageIndex pageSize : ℕ) : List α :=
  (rows.drop (pageIndex * pageSize)).take pageSize

/-- `computeBoxStats`: for a nonempty array, sorts ascending with the
numeric comparator and picks the floor ranks.  `Math.floor(n * 0.25)`,
`Math.floor(n * 0.5)` and `Math.floor(n * 0.75)` are exactly `n / 4`,
`n / 2` and `3 * n / 4` in truncating natural division, because `0.25`,
`0.5` and `0.75` are exact binary fractions. -/
def computeBoxStats (arr : List ℚ) : List JSNum :=
  if arr.length = 0 then [.nan, .nan, .nan, .nan, .nan]
  else
    let sorted := List.insertionSort (fun a b => a ≤ b) arr
    [ .num (sorted.getD 0 0),
      .num (sorted.getD (sorted.length / 4) 0),
      .num (sorted.getD (sorted.length / 2) 0),
      .num (sorted.getD (3 * sorted.length / 4) 0),
      .num (sorted.getD (sorted.length - 1) 0) ]

/-- The node entries of a `GET /_wlm/stats/{groupId}` response body: the
keys `_nodes` and `cluster_name` are metadata and are skipped. -/
def nodeEntries (stats : List (String × NodeStats)) : List (String × NodeStats) :=
  stats.filter (fun p => !(p.1 == "_nodes" || p.1 == "cluster_name"))

/-- The cpu samples collected by the detail loop for one group: per node,
if the group is present in that node's `workload_groups`,
`(cpu?.current_usage ?? 0) * 100` is pushed. -/
def cpuUsagesOf (groupId : String) (stats : List (String × NodeStats)) : List ℚ :=
  (nodeEntries stats).filterMap (fun p =>
    (p.2.workload_groups.lookup groupId).map (fun u => (u.cpu.getD 0) * 100))

/-- Memory counterpart of `cpuUsagesOf`. -/
def memUsagesOf (groupId : String) (stats : List (String × NodeStats)) : List ℚ :=
  (nodeEntries stats).filterMap (fun p =>
    (p.2.workload_groups.lookup groupId).map (fun u => (u.memory.getD 0) * 100))

/-- One iteration of the detail-fetch loop of `fetchStatsForNode` (lines
337-363).  `none` models a rejected request: the `catch` only logs, so the
row is left unchanged and keeps its initial empty `cpuStats`/`memStats`.
On success both box-stat arrays are assigned. -/
def applyDetail (detail : String → Option (List (String × NodeStats)))
    (g : WorkloadGroupData) : WorkloadGroupData :=
  match detail g.groupId with
  | none => g
  | some stats =>
      { g with
        cpuStats := computeBoxStats (cpuUsagesOf g.groupId stats)
        memStats := computeBoxStats (memUsagesOf g.groupId stats) }

/-- The inputs of one refresh cycle of `fetchStatsForNode`: the fetched
responses (with `none` standing for a rejected per-group detail request)
and the view state captured by the closure. -/
structure CycleInput where
  workloadGroups : List (String × GroupStats)
  idToName : String → String
  limitsResp : Option (List WorkloadGroup)
  detail : String → Option (List (String × NodeStats))
  searchQuery : String
  sortField : SortField
  sortDirection : SortDirection
  pageIndex : ℕ
  pageSize : ℕ

/-- `rawData` of `fetchStatsForNode` (lines 302-326). -/
def rawRows (input : CycleInput) : List WorkloadGroupData :=
  input.workloadGroups.map
    (mkRow (fetchWorkloadGroupsWithLimits input.limitsResp) input.idToName)

/-- `filteredRawData` (lines 328-330). -/
def filteredRawRows (input : CycleInput) : List WorkloadGroupData :=
  filterRows input.searchQuery (rawRows input)

/-- `sorted` (line 333). -/
def sortedRows (input : CycleInput) : List WorkloadGroupData :=
  sortData (filteredRawRows input) input.sortField input.sortDirection

/-- The row set after the detail loop.  The loop mutates the row objects
of the paged slice in place, and those objects are shared with `sorted`,
so the final value of `sorted` is the sorted list with `applyDetail`
applied exactly at the paged positions. -/
def finalRows (input : CycleInput) : List WorkloadGroupData :=
  let sorted := sortedRows input
  let start := input.pageIndex * input.pageSize
  sorted.take start
    ++ (paginate sorted input.pageIndex input.pageSize).map (applyDetail input.detail)
    ++ sorted.drop (start + input.pageSize)

/-- The predicate of the `overLimit` filter (lines 365-367):
`g.cpuUsage > g.cpuLimit || g.memoryUsage > g.memLimit`, with `NaN`
comparisons false. -/
def overLimitB (g : WorkloadGroupData) : Bool :=
  jsGtNum (g.cpuUsage : ℚ) g.cpuLimit || jsGtNum (g.memoryUsage : ℚ) g.memLimit

/-- The summary statistics set by `setSummaryStats`. -/
structure SummaryStats where
  totalGroups : ℕ
  totalCompletions : ℕ
  totalRejections : ℕ
  totalCancellations : ℕ
  groupsExceedingLimits : ℕ
deriving DecidableEq

/-- Pure core of `fetchStatsForNode` (lines 293-384): the rows passed to
`setData`/`setFilteredData` and the summary statistics.  The summary
reads only counter and usage/limit fields, which the detail loop's
mutation never touches, so it is computed from the pre-mutation filtered
rows, exactly as reading `filteredRawData` after the loop does in the
source (the loop only assigns `cpuStats`/`memStats`). -/
def fetchStatsForNode (input : CycleInput) : List WorkloadGroupData × SummaryStats :=
  let filteredRawData := filteredRawRows input
  ( finalRows input,
    { totalGroups := (sortedRows input).length
      totalCompletions := filteredRawData.foldl (fun sum g => sum + g.totalCompletions) 0
      totalRejections := filteredRawData.foldl (fun sum g => sum + g.totalRejections) 0
      totalCancellations := filteredRawData.foldl (fun sum g => sum + g.totalCancellations) 0
      groupsExceedingLimits := (filteredRawData.filter (fun g => overLimitB g)).length } )

/-!
Polling model for the interval effect (lines 532-540).  The environment's
live timers are a list of (interval id, captured `selectedNode`) pairs:
`setInterval` registers a timer and returns its id, `clearInterval`
removes the timer with that id.  The effect depends on `[selectedNode]`,
so when the selected node changes the framework first runs the previous
effect's cleanup (`clearInterval(intervalId)`) and then the new effect
body.  On a tick every live timer's callback runs; the callback issues a
periodic fetch exactly when its captured `selectedNode` is truthy
(non-empty).
-/

structure TimerState where
  timers : List (ℕ × String)
  nextId : ℕ
deriving DecidableEq

/-- `setInterval` with a callback capturing `selectedNode`: registers a
fresh timer and returns its id. -/
def setIntervalT (s : TimerState) (selectedNode : String) : TimerState × ℕ :=
  (⟨s.timers ++ [(s.nextId, selectedNode)], s.nextId + 1⟩, s.nextId)

/-- `clearInterval`. -/
def clearIntervalT (s : TimerState) (intervalId : ℕ) : TimerState :=
  ⟨s.timers.filter (fun p => !(p.1 == intervalId)), s.nextId⟩

/-- The effect body: `setInterval(() => { if (selectedNode) fetchStatsForNode(selectedNode) }, 60000)`. -/
def pollingEffect (s : TimerState) (selectedNode : String) : TimerState × ℕ :=
  setIntervalT s selectedNode

/-- A change of `selectedNode`: the previous effect's cleanup runs first
(clearing its interval id), then the effect body for the new target. -/
def switchPollingTarget (s : TimerState) (prevIntervalId : ℕ)
    (newTarget : String) : TimerState × ℕ :=
  pollingEffect (clearIntervalT s prevIntervalId) newTarget

/-- Advancing time by one interval: the targets fetched by the timer
callbacks that fire, in timer order. -/
def tickFetches (s : TimerState) : List String :=
  (s.timers.filter (fun p => !p.2.isEmpty)).map (fun p => p.2)

/-!
Concrete inputs used by the counterexamples and witnesses below.
-/

/-- A cycle with two groups whose completion counters are 1 and 2 and an
empty search text. -/
def c1Base : CycleInput :=
  { workloadGroups :=
      [("g1", ⟨some 1, some 0, some 0, none, none⟩),
       ("g2", ⟨some 2, some 0, some 0, none, none⟩)]
    idToName := fun gid => if gid = "g1" then "alpha" else "beta"
    limitsResp := none
    detail := fun _ => none
    searchQuery := ""
    sortField := .cpuUsage
    sortDirection := .desc
    pageIndex := 0
    pageSize := 10 }

/-- The same fetched data with the search text `"alpha"`, which matches
only the first group. -/
def c1Search : CycleInput := { c1Base with searchQuery := "alpha" }

/-- Detail responses for the three-row cycle: the fetch for group `"b"`
is rejected, the others succeed with one node entry. -/
def c2Detail : String → Option (List (String × NodeStats)) := fun gid =>
  if gid = "b" then none
  else some [("n1", ⟨[("a", ⟨none, none⟩), ("c", ⟨none, none⟩)]⟩)]

/-- A cycle with three groups `"a"`, `"b"`, `"c"` where the detail fetch
for the second fails. -/
def c2Input : CycleInput :=
  { workloadGroups :=
      [("a", ⟨none, none, none, none, none⟩),
       ("b", ⟨none, none, none, none, none⟩),
       ("c", ⟨none, none, none, none, none⟩)]
    idToName := fun gid => gid
    limitsResp := none
    detail := c2Detail
    searchQuery := ""
    sortField := .cpuUsage
    sortDirection := .desc
    pageIndex := 0
    pageSize := 10 }

/-- The row built for group `"b"` in `c2Input`'s cycle. -/
def c2RowB : WorkloadGroupData :=
  ⟨"b", 0, 0, 0, 0, 0, "", [], [], .num 100, .num 100, "b"⟩

/-- A row with both limit sentinels `NaN` and usages far above any
threshold. -/
def rowNanLimits : WorkloadGroupData :=
  ⟨"w", 150, 150, 0, 0, 0, "", [], [], .nan, .nan, "g"⟩

/-- A row with the defaulted limits `100` and cpu usage `150`. -/
def rowDefaultLimits : WorkloadGroupData :=
  ⟨"w", 150, 0, 0, 0, 0, "", [], [], .num 100, .num 100, "g"⟩

/-!
Helper lemmas.
-/

theorem foldl_add_map {α : Type} (f : α → ℕ) (l : List α) (a : ℕ) :
    l.foldl (fun sum g => sum + f g) a = a + (l.map f).sum := by
  induction l generalizing a with
  | nil => simp
  | cons x xs ih => simp [ih, Nat.add_assoc]

theorem sorted_getD_le (l : List ℚ) (hs : l.Sorted (fun a b => a ≤ b))
    {i j : ℕ} (hij : i ≤ j) (hj : j < l.length) : l.getD i 0 ≤ l.getD j 0 := by
  have hi : i < l.length := lt_of_le_of_lt hij hj
  have h := hs.rel_get_of_le (a := ⟨i, hi⟩) (b := ⟨j, hj⟩) hij
  rw [List.getD_eq_getElem?_getD, List.getD_eq_getElem?_getD,
    List.getElem?_eq_getElem hi, List.getElem?_eq_getElem hj]
  simpa using h

/-- C4: `computeBoxStats` applied to the empty sequence returns a 5-tuple
in which every component is `NaN`. -/
theorem c4_empty_box_stats_nan :
    computeBoxStats [] = [.nan, .nan, .nan, .nan, .nan] := rfl

/-- C3: for every non-empty sequence, `computeBoxStats` returns the
elements at indices `0`, `⌊n/4⌋`, `⌊n/2⌋`, `⌊3n/4⌋` and `n-1` of the
ascending sorted permutation of the input, with no interpolation. -/
theorem c3_box_stats_floor_ranks (arr s : List ℚ) (hne : arr ≠ [])
    (hperm : s.Perm arr) (hsort : s.Sorted (fun a b => a ≤ b)) :
    computeBoxStats arr =
      [ .num (s.getD 0 0), .num (s.getD (s.length / 4) 0),
        .num (s.getD (s.length / 2) 0), .num (s.getD (3 * s.length / 4) 0),
        .num (s.getD (s.length - 1) 0) ] := by
  have hins : List.insertionSort (fun a b => a ≤ b) arr = s :=
    List.eq_of_perm_of_sorted ((List.perm_insertionSort _ arr).trans hperm.symm)
      (List.sorted_insertionSort _ arr) hsort
  have hlen : ¬ arr.length = 0 := by simpa [List.length_eq_zero] using hne
  simp only [computeBoxStats, if_neg hlen, hins]

/-- Witness for C3 on a concrete four-element input. -/
theorem c3_witness :
    computeBoxStats [30, 10, 40, 20] = [.num 10, .num 20, .num 30, .num 40, .num 40] := by
  have h := c3_box_stats_floor_ranks [30, 10, 40, 20] [10, 20, 30, 40]
    (by decide) (by decide) (by decide)
  simpa using h

/-- C6: for every non-empty input, the five components returned by
`computeBoxStats` are finite and non-decreasing:
min ≤ Q1 ≤ median ≤ Q3 ≤ max. -/
theorem c6_box_stats_monotone (arr : List ℚ) (hne : arr ≠ []) :
    ∃ a b c d e : ℚ,
      computeBoxStats arr = [.num a, .num b, .num c, .num d, .num e] ∧
      a ≤ b ∧ b ≤ c ∧ c ≤ d ∧ d ≤ e := by
  have hlen : ¬ arr.length = 0 := by simpa [List.length_eq_zero] using hne
  set s := List.insertionSort (fun a b => a ≤ b) arr with hsdef
  have hsort : s.Sorted (fun a b => a ≤ b) := List.sorted_insertionSort _ arr
  have hlens : s.length = arr.length := List.length_insertionSort _ arr
  have hpos : 0 < s.length := by omega
  refine ⟨s.getD 0 0, s.getD (s.length / 4) 0, s.getD (s.length / 2) 0,
    s.getD (3 * s.length / 4) 0, s.getD (s.length - 1) 0, ?_, ?_, ?_, ?_, ?_⟩
  · simp only [computeBoxStats, if_neg hlen, hsdef]
  · exact sorted_getD_le s hsort (by omega) (by omega)
  · exact sorted_getD_le s hsort (by omega) (by omega)
  · exact sorted_getD_le s hsort (by omega) (by omega)
  · exact sorted_getD_le s hsort (by omega) (by omega)

/-- Witness for C6 on a concrete three-element input. -/
theorem c6_witness :
    ∃ a b c d e : ℚ,
      computeBoxStats [5, 1, 3] = [.num a, .num b, .num c, .num d, .num e] ∧
      a ≤ b ∧ b ≤ c ∧ c ≤ d ∧ d ≤ e :=
  c6_box_stats_monotone [5, 1, 3] (by decide)

/-- C7: `paginate` returns exactly the slice
`[pageIndex * pageSize, (pageIndex + 1) * pageSize)` of the row set, and
an out-of-range page index yields the empty sequence rather than
failing. -/
theorem c7_paginate_slice {α : Type} (rows : List α) (pageIndex pageSize k : ℕ) :
    (paginate rows pageIndex pageSize)[k]? =
      (if k < pageSize then rows[pageIndex * pageSize + k]? else none) ∧
    (rows.length ≤ pageIndex * pageSize → paginate rows pageIndex pageSize = []) := by
  constructor
  · by_cases hk : k < pageSize
    · rw [if_pos hk]
      unfold paginate
      rw [List.getElem?_take_of_lt hk, List.getElem?_drop]
    · rw [if_neg hk]
      unfold paginate
      exact List.getElem?_take_eq_none (Nat.le_of_not_lt hk)
  · intro h
    unfold paginate
    rw [List.drop_eq_nil_iff.mpr h]
    simp

/-- Witness for C7: a 3-element input with page index 5 and page size 10
yields the empty sequence. -/
theorem c7_witness : paginate ([1, 2, 3] : List ℕ) 5 10 = [] :=
  (c7_paginate_slice [1, 2, 3] 5 10 0).2 (by decide)

/-- C9: a configured resource limit of exactly 0 is converted to the
`NaN` sentinel because the conversion tests JavaScript truthiness, so it
is indistinguishable from an absent `resource_limits` object. -/
theorem c9_zero_limit_is_nan (m c : ℚ) :
    (limitsEntry (some ⟨0, m⟩)).cpuLimit = .nan ∧
    (limitsEntry (some ⟨c, 0⟩)).memLimit = .nan ∧
    limitsEntry (some ⟨0, 0⟩) = limitsEntry none ∧
    (limitsEntry none).cpuLimit = .nan ∧ (limitsEntry none).memLimit = .nan := by
  refine ⟨?_, ?_, ?_, rfl, rfl⟩ <;> simp [limitsEntry]

/-- C1 counterexample: two cycles over the same fetched row set differing
only in the search text report different counter sums (3 vs 1), and the
sum over the unfiltered fetched set is 3, so the counter sums are not
computed over the unfiltered row set and are not independent of the
search text. -/
theorem c1_counterexample :
    c1Search = { c1Base with searchQuery := "alpha" } ∧
    (fetchStatsForNode c1Base).2.totalCompletions = 3 ∧
    (fetchStatsForNode c1Search).2.totalCompletions = 1 ∧
    ((rawRows c1Search).map (fun g => g.totalCompletions)).sum = 3 ∧
    (1 : ℕ) ≠ 3 := by
  refine ⟨rfl, ?_, ?_, ?_, by decide⟩
  · norm_num +decide [fetchStatsForNode, filteredRawRows, filterRows, rawRows,
      mkRow, fetchWorkloadGroupsWithLimits, c1Base]
  · norm_num +decide [fetchStatsForNode, filteredRawRows, filterRows, rawRows,
      mkRow, fetchWorkloadGroupsWithLimits, c1Search, c1Base, jsIncludes,
      lowerStr, containsSub, prefixAt]
  · norm_num +decide [rawRows, mkRow, fetchWorkloadGroupsWithLimits, c1Search, c1Base]

/-- C1 amended: in every refresh cycle all three counter sums are computed
over the search-filtered row set (hence they depend on the search text,
as the counterexample shows), and `totalGroups` equals the size of the
filtered/sorted set. -/
theorem c1_totals_over_filtered (input : CycleInput) :
    (fetchStatsForNode input).2.totalCompletions
        = ((filteredRawRows input).map (fun g => g.totalCompletions)).sum ∧
    (fetchStatsForNode input).2.totalRejections
        = ((filteredRawRows input).map (fun g => g.totalRejections)).sum ∧
    (fetchStatsForNode input).2.totalCancellations
        = ((filteredRawRows input).map (fun g => g.totalCancellations)).sum ∧
    (fetchStatsForNode input).2.totalGroups = (filteredRawRows input).length := by
  refine ⟨?_, ?_, ?_, ?_⟩
  · simpa [fetchStatsForNode] using
      foldl_add_map (fun g => g.totalCompletions) (filteredRawRows input) 0
  · simpa [fetchStatsForNode] using
      foldl_add_map (fun g => g.totalRejections) (filteredRawRows input) 0
  · simpa [fetchStatsForNode] using
      foldl_add_map (fun g => g.totalCancellations) (filteredRawRows input) 0
  · simp [fetchStatsForNode, sortedRows, sortData, List.length_insertionSort]

/-- C5: a row whose two limit fields are both the `NaN` sentinel never
satisfies the exceeding-limits predicate, whatever its usages, so it is
never counted in `groupsExceedingLimits` (which counts exactly the
filtered rows satisfying that predicate). -/
theorem c5_nan_limits_never_exceed (g : WorkloadGroupData)
    (h1 : g.cpuLimit = .nan) (h2 : g.memLimit = .nan) :
    overLimitB g = false ∧
    (∀ rows : List WorkloadGroupData,
        ((g :: rows).filter (fun r => overLimitB r)).length
          = (rows.filter (fun r => overLimitB r)).length) ∧
    (∀ input : CycleInput,
        (fetchStatsForNode input).2.groupsExceedingLimits
          = ((filteredRawRows input).filter (fun r => overLimitB r)).length) := by
  have hov : overLimitB g = false := by
    simp [overLimitB, h1, h2, jsGtNum]
  refine ⟨hov, fun rows => ?_, fun input => rfl⟩
  simp [List.filter_cons, hov]

/-- Witness for C5 at a concrete row with usages 150 and `NaN` limits. -/
theorem c5_witness : overLimitB rowNanLimits = false :=
  (c5_nan_limits_never_exceed rowNanLimits rfl rfl).1

/-- C10: a group id absent from the limits map gets default limits of 100
(not the `NaN` sentinel); a failed limits fetch yields the empty map, so
then every group is defaulted; and a row with limit 100 and usage above
100 satisfies the exceeding-limits predicate. -/
theorem c10_missing_limits_default_100 (limitsMap : String → Option GroupLimits)
    (idToName : String → String) (entry : String × GroupStats)
    (habs : limitsMap entry.1 = none) :
    (mkRow limitsMap idToName entry).cpuLimit = .num 100 ∧
    (mkRow limitsMap idToName entry).memLimit = .num 100 ∧
    (∀ k, fetchWorkloadGroupsWithLimits none k = none) ∧
    (∀ g : WorkloadGroupData, g.cpuLimit = .num 100 →
        (100 : ℚ) < (g.cpuUsage : ℚ) → overLimitB g = true) := by
  refine ⟨?_, ?_, fun k => rfl, fun g hL hU => ?_⟩
  · simp [mkRow, habs]
  · simp [mkRow, habs]
  · simp [overLimitB, hL, jsGtNum, hU]

/-- Witness for C10: a concrete absent group id gets cpu limit 100, and a
concrete row with usage 150 and limit 100 is counted as exceeding. -/
theorem c10_witness :
    (mkRow (fun _ => none) (fun gid => gid)
        ("g", ⟨none, none, none, none, none⟩)).cpuLimit = .num 100 ∧
    overLimitB rowDefaultLimits = true := by
  have h := c10_missing_limits_default_100 (fun _ => none) (fun gid => gid)
    ("g", ⟨none, none, none, none, none⟩) rfl
  exact ⟨h.1, h.2.2.2 rowDefaultLimits rfl (by norm_num [rowDefaultLimits])⟩

/-- C8: when the single live interval timer is the previous effect's and
the selected polling target changes, the previous timer is cancelled
before the new one is started, so exactly one timer is live and one tick
triggers exactly one periodic fetch, addressed to the new target only. -/
theorem c8_single_interval (s : TimerState) (intervalId : ℕ) (oldT newT : String)
    (hprev : s.timers = [(intervalId, oldT)]) (hne : newT.isEmpty = false) :
    ((switchPollingTarget s intervalId newT).1.timers).length = 1 ∧
    tickFetches (switchPollingTarget s intervalId newT).1 = [newT] := by
  simp [switchPollingTarget, pollingEffect, setIntervalT, clearIntervalT,
    tickFetches, hprev, hne]

/-- Witness for C8: switching from "node-a" to "node-b". -/
theorem c8_witness :
    ((switchPollingTarget ⟨[(0, "node-a")], 1⟩ 0 "node-b").1.timers).length = 1 ∧
    tickFetches (switchPollingTarget ⟨[(0, "node-a")], 1⟩ 0 "node-b").1 = ["node-b"] :=
  c8_single_interval ⟨[(0, "node-a")], 1⟩ 0 "node-a" "node-b" rfl (by decide)

theorem applyDetail_groupId (d : String → Option (List (String × NodeStats)))
    (g : WorkloadGroupData) : (applyDetail d g).groupId = g.groupId := by
  unfold applyDetail
  split <;> rfl

theorem mem_sortedRows_stats (input : CycleInput) (g : WorkloadGroupData)
    (hg : g ∈ sortedRows input) : g.cpuStats = [] ∧ g.memStats = [] := by
  have hf : g ∈ filteredRawRows input := by
    unfold sortedRows sortData at hg
    exact (List.perm_insertionSort _ _).mem_iff.mp hg
  have hr : g ∈ rawRows input := by
    unfold filteredRawRows filterRows at hf
    by_cases hq : input.searchQuery.isEmpty
    · rwa [if_pos hq] at hf
    · rw [if_neg hq] at hf
      exact (List.mem_filter.mp hf).1
  obtain ⟨p, hp, rfl⟩ := List.mem_map.mp hr
  exact ⟨rfl, rfl⟩

/-- C2 counterexample: in the three-row cycle where the detail fetch for
group `"b"` fails, all three rows survive, but the failed row's box stats
are the initial empty array, not the `NaN`-filled 5-element sentinel. -/
theorem c2_counterexample :
    (fetchStatsForNode c2Input).1.length = 3 ∧
    ((fetchStatsForNode c2Input).1.filter (fun g => g.groupId == "b")).map
        (fun g => g.cpuStats) = [[]] ∧
    c2Input.detail "b" = none ∧
    ([] : List JSNum) ≠ [.nan, .nan, .nan, .nan, .nan] := by
  refine ⟨?_, ?_, by decide, by decide⟩
  · norm_num +decide [fetchStatsForNode, finalRows, sortedRows, sortData,
      filteredRawRows, filterRows, rawRows, mkRow, fetchWorkloadGroupsWithLimits,
      paginate, applyDetail, c2Input, c2Detail, computeBoxStats, cpuUsagesOf,
      memUsagesOf, nodeEntries, List.insertionSort, List.orderedInsert, rowLe,
      numKey, List.lookup]
  · norm_num +decide [fetchStatsForNode, finalRows, sortedRows, sortData,
      filteredRawRows, filterRows, rawRows, mkRow, fetchWorkloadGroupsWithLimits,
      paginate, applyDetail, c2Input, c2Detail, computeBoxStats, cpuUsagesOf,
      memUsagesOf, nodeEntries, List.insertionSort, List.orderedInsert, rowLe,
      numKey, List.lookup]

/-- C2 amended: a failed per-row detail fetch never aborts the cycle —
the final row set is a permutation (by group id) of the whole filtered
row set — and every final row whose detail fetch failed keeps its initial
empty box-stats arrays (rather than receiving the `NaN`-filled
sentinel). -/
theorem c2_rows_preserved (input : CycleInput) :
    ((fetchStatsForNode input).1.map (fun g => g.groupId)).Perm
        ((filteredRawRows input).map (fun g => g.groupId)) ∧
    ∀ g, g ∈ (fetchStatsForNode input).1 → input.detail g.groupId = none →
      g.cpuStats = [] ∧ g.memStats = [] := by
  have hfr : (fetchStatsForNode input).1 = finalRows input := rfl
  have hmap1 : ∀ (l : List WorkloadGroupData),
      (l.map (applyDetail input.detail)).map (fun g => g.groupId)
        = l.map (fun g => g.groupId) := by
    intro l
    induction l with
    | nil => rfl
    | cons x xs ih => simp [applyDetail_groupId, ih]
  constructor
  · rw [hfr]
    have hm : (finalRows input).map (fun g => g.groupId)
        = (sortedRows input).map (fun g => g.groupId) := by
      simp only [finalRows, paginate]
      rw [List.map_append, List.map_append, hmap1]
      rw [← List.map_append, ← List.map_append]
      congr 1
      rw [List.append_assoc]
      have h2 : (sortedRows input).drop
            (input.pageIndex * input.pageSize + input.pageSize)
          = ((sortedRows input).drop (input.pageIndex * input.pageSize)).drop
              input.pageSize := by
        rw [List.drop_drop, Nat.add_comm]
      rw [h2, List.take_append_drop, List.take_append_drop]
    rw [hm]
    unfold sortedRows sortData
    exact (List.perm_insertionSort _ _).map _
  · intro g hg hdet
    rw [hfr] at hg
    simp only [finalRows] at hg
    rcases List.mem_append.mp hg with hg' | hC
    · rcases List.mem_append.mp hg' with hA | hB
      · exact mem_sortedRows_stats input g (List.mem_of_mem_take hA)
      · obtain ⟨g₀, hg₀, rfl⟩ := List.mem_map.mp hB
        have hg₀s : g₀ ∈ sortedRows input := by
          unfold paginate at hg₀
          exact List.mem_of_mem_drop (List.mem_of_mem_take hg₀)
        rw [applyDetail_groupId] at hdet
        have heq : applyDetail input.detail g₀ = g₀ := by
          simp [applyDetail, hdet]
        rw [heq]
        exact mem_sortedRows_stats input g₀ hg₀s
    · exact mem_sortedRows_stats input g (List.mem_of_mem_drop hC)

/-- Witness for C2: the concrete row of group `"b"` is present in the
final output of `c2Input`'s cycle and keeps its empty box stats. -/
theorem c2_witness :
    c2RowB ∈ (fetchStatsForNode c2Input).1 ∧
    c2RowB.cpuStats = [] ∧ c2RowB.memStats = [] := by
  have hmem : c2RowB ∈ (fetchStatsForNode c2Input).1 := by
    norm_num +decide [fetchStatsForNode, finalRows, sortedRows, sortData,
      filteredRawRows, filterRows, rawRows, mkRow, fetchWorkloadGroupsWithLimits,
      paginate, applyDetail, c2Input, c2Detail, computeBoxStats, cpuUsagesOf,
      memUsagesOf, nodeEntries, List.insertionSort, List.orderedInsert, rowLe,
      numKey, List.lookup, c2RowB]
  have h := (c2_rows_preserved c2Input).2 c2RowB hmem (by decide)
  exact ⟨hmem, h.1, h.2⟩
